import Mathlib

/-!
Shallow embedding of the resumable replication engine of `src/core/cloner.py`
(class `ChatCloner`): the checkpoint helpers (`_get_checkpoint_file`,
`_load_checkpoint`, `_save_checkpoint`) and the `clone_chat` loop.

Python strings are Lean `String`s and Python ints are `Int`/`Nat`.  The
Telethon client is modelled as an oracle environment `Env`: the message
stream is a fixed list (Telethon's `get_messages(min_id=last_id,
limit=batch_size, reverse=True)` returns the first `limit` stream messages
with id greater than `min_id`, oldest first), the k-th fetch may raise
(`fetchErr k`), the k-th `send_message` call has outcome `send k`, and an
external `stop_cloning()` call is the schedule `stopAfter`: once that many
inner-loop items have been processed, every read of `self.is_running`
sees `False`.  The run also records the trace of externally visible events
(fetch attempts, send attempts, checkpoint writes, sleeps, the fatal-auth
halt).  The `while` loop is given fuel; `none` means the fuel ran out.
-/

/-- One unit of the source stream: a message id plus whether the message is
a `MessageService` instance (a structural notice, skipped by the loop). -/
structure Msg where
  id : Int
  isService : Bool
deriving DecidableEq

/-- Outcome of one `client.send_message` call, by except-clause of
`clone_chat`: success, `errors.FloodWaitError` (carrying `e.seconds`),
`errors.AuthKeyError`, `errors.RPCError` (carrying `str(e)`), or any other
exception (carrying `str(e)`). -/
inductive SendResult where
  | ok
  | floodWait (seconds : Nat)
  | authKey
  | rpc (msg : String)
  | exc (msg : String)
deriving DecidableEq

/-- Externally visible events of a run, in program order.  `sleepFlood w s`
records `await asyncio.sleep(e.seconds + 5)` after a FloodWait of `w`
seconds, `s` being the amount actually slept; `sleepDelay` is the per-item
`await asyncio.sleep(delay_between_messages)` (its float duration is the
fixed parameter, so the event carries no payload); `sleepPause` is the
quota pause `await asyncio.sleep(pause_duration)`; `saveEv` is a
`_save_checkpoint` write; `authHaltEv` is the critical
authorization-invalidated halt. -/
inductive Ev where
  | fetchEv (minId : Int)
  | sendEv (msgId : Int)
  | saveEv (msgId : Int)
  | sleepDelay
  | sleepPause (d : Nat)
  | sleepFlood (requested slept : Nat)
  | authHaltEv
deriving DecidableEq

/-- The tuning parameters of `clone_chat` (the float
`delay_between_messages` is modelled as a rational). -/
structure Params where
  batch_size : Nat
  delay_between_messages : ℚ
  pause_every_n : Nat
  pause_duration : Nat
  source_topic_id : Option Int
  target_topic_id : Option Int
deriving DecidableEq

/-- The mutable run state of `clone_chat`: the `is_running` flag,
`last_id`, `global_counter`, `total_sent`, `errors_count`, and the current
content of the checkpoint file.  `sendIdx`, `fetchIdx` and `examined` are
embedding instrumentation: they index the oracle functions of `Env`
(number of send attempts, fetch attempts, and inner-loop items processed
so far). -/
structure St where
  is_running : Bool
  last_id : Int
  global_counter : Nat
  total_sent : Nat
  errors_count : Nat
  checkpoint : Option String
  sendIdx : Nat
  fetchIdx : Nat
  examined : Nat
deriving DecidableEq

/-- The oracle environment of one run: initial checkpoint-file content
(`none` = file absent), outcome of entity resolution (`get_entity` on the
source and target, jointly), the source message stream, the fetch-error
and send-outcome oracles, and the external stop schedule. -/
structure Env where
  checkpoint : Option String
  resolve : Except String Unit
  stream : List Msg
  fetchErr : Nat → Bool
  send : Nat → SendResult
  stopAfter : Option Nat

/-- The dictionary returned by `clone_chat`.  The entity-resolution failure
returns `{"success": False, "total_messages": 0, "errors": 1, "error":
str(e)}` (no `last_id` key, hence the `Option`s); the normal return is
`{"success": True, "total_messages": global_counter, "errors":
errors_count, "last_id": last_id}`. -/
structure CloneResult where
  success : Bool
  total_messages : Nat
  errors : Nat
  last_id : Option Int
  error : Option String
deriving DecidableEq

/-- `_get_checkpoint_file`: the file name
`"checkpoint_" + source_id + "_" + target_id + ".txt"` (the directory
prefix is fixed and common to every pair, so it is omitted). -/
def checkpointFilename (source_id target_id : String) : String :=
  "checkpoint_" ++ source_id ++ "_" ++ target_id ++ ".txt"

/-- Characters removed by Python `str.strip()`. -/
def isPySpace (c : Char) : Bool :=
  c = ' ' || c = '\t' || c = '\n' || c = '\r' || c = '\x0B' || c = '\x0C'

/-- Python `str.strip()` on a character list. -/
def pyStripChars (l : List Char) : List Char :=
  ((l.dropWhile isPySpace).reverse.dropWhile isPySpace).reverse

/-- Digit tail of Python `int()` parsing (ASCII): each further character is
a digit, or an underscore that must be followed by a digit. `acc` is the
value accumulated so far. -/
def digitsVal (acc : Nat) : List Char → Option Nat
  | [] => some acc
  | c :: rest =>
    if c.isDigit then digitsVal (acc * 10 + (c.toNat - 48)) rest
    else if c = '_' then
      match rest with
      | c2 :: rest2 => if c2.isDigit then digitsVal (acc * 10 + (c2.toNat - 48)) rest2 else none
      | [] => none
    else none

/-- Unsigned part of Python `int()` parsing: at least one leading digit. -/
def pyParseNat : List Char → Option Nat
  | [] => none
  | c :: rest => if c.isDigit then digitsVal (c.toNat - 48) rest else none

/-- Signed Python `int()` parsing of an already-stripped character list:
an optional sign followed by digits. -/
def pyParseInt (l : List Char) : Option Int :=
  match l with
  | [] => none
  | c :: rest =>
    if c = '+' then (pyParseNat rest).map (fun n : Nat => (n : Int))
    else if c = '-' then (pyParseNat rest).map (fun n : Nat => -(n : Int))
    else (pyParseNat (c :: rest)).map (fun n : Nat => (n : Int))

/-- Python `int(s.strip())`, `none` when it raises (modelled for ASCII
decimal literals: optional sign, digits, underscores between digits). -/
def pyInt (s : String) : Option Int :=
  pyParseInt (pyStripChars s.data)

/-- `_load_checkpoint`: the recorded integer when the file exists and its
content parses, else 0.  Never fails. -/
def load_checkpoint : Option String → Int
  | none => 0
  | some s =>
    match pyInt s with
    | some v => v
    | none => 0

/-- Decimal digit character (only applied to values below 10). -/
def digitChar : Nat → Char
  | 0 => '0'
  | 1 => '1'
  | 2 => '2'
  | 3 => '3'
  | 4 => '4'
  | 5 => '5'
  | 6 => '6'
  | 7 => '7'
  | 8 => '8'
  | _ => '9'

/-- Decimal digits of a natural number (fuel-based so that it reduces in
the kernel; `natStr` supplies sufficient fuel). -/
def natChars : Nat → Nat → List Char
  | 0, _ => []
  | f + 1, n => if n < 10 then [digitChar n] else natChars f (n / 10) ++ [digitChar (n % 10)]

/-- Decimal digits of a natural number. -/
def natStr (n : Nat) : List Char := natChars (n + 1) n

/-- Python `str(i)` of an int: optional minus sign and decimal digits.
This is the content `_save_checkpoint` writes. -/
def pyStr (i : Int) : String :=
  if i < 0 then String.mk ('-' :: natStr i.natAbs) else String.mk (natStr i.toNat)

/-- Substring occurrence on character lists (Python `pat in s`). -/
def listContainsSub (pat : List Char) : List Char → Bool
  | [] => pat.isEmpty
  | c :: rest => pat.isPrefixOf (c :: rest) || listContainsSub pat rest

/-- Python `pat in s` on strings. -/
def pyIn (pat s : String) : Bool := listContainsSub pat.data s.data

/-- ASCII lower-casing of one character (Python `str.lower()` on the
character sets the error texts use). -/
def charLower (c : Char) : Char :=
  if 'A' ≤ c && c ≤ 'Z' then Char.ofNat (c.toNat + 32) else c

/-- Python `str.lower()`. -/
def pyLower (s : String) : String := String.mk (s.data.map charLower)

/-- The textual authorization-invalidated test of `clone_chat` applied to
`str(e).lower()`: `("authorization" in m and ("invalidated" in m or
"terminated" in m)) or "session revoked" in m or "user deactivated" in m`. -/
def isAuthInvalidatedMsg (e : String) : Bool :=
  let m := pyLower e
  (pyIn "authorization" m && (pyIn "invalidated" m || pyIn "terminated" m)) ||
    pyIn "session revoked" m || pyIn "user deactivated" m

/-- Telethon `get_messages(min_id=minId, limit=limit, reverse=True)`: the
first `limit` stream messages with id greater than `minId`, oldest first. -/
def fetchBatch (stream : List Msg) (minId : Int) (limit : Nat) : List Msg :=
  (stream.filter (fun m => minId < m.id)).take limit

/-- The external `stop_cloning()` call: once `stopAfter` many inner-loop
items have been processed, any read of `self.is_running` sees `False`. -/
def applyStop (env : Env) (st : St) : St :=
  match env.stopAfter with
  | some k => if k ≤ st.examined then { st with is_running := false } else st
  | none => st

/-- State after one batch fetch was attempted: the fetch-attempt index
moves (embedding instrumentation; no run variable changes). -/
def fetchStep (st : St) : St := { st with fetchIdx := st.fetchIdx + 1 }

/-- The `global_counter += 1` at the top of the `try` block (before the
send call, so failed attempts are counted too). -/
def attemptStep (st : St) : St := { st with global_counter := st.global_counter + 1 }

/-- The `continue` on a `MessageService` item: nothing counted (only the
processed-items instrumentation moves). -/
def serviceSkip (st : St) : St := { st with examined := st.examined + 1 }

/-- State after a successful send: `total_sent += 1`, `last_id = msg.id`,
`_save_checkpoint(last_id)`, and — when `total_sent >= pause_every_n` —
the quota-pause reset `total_sent = 0`. -/
def stepOk (p : Params) (st : St) (m : Msg) : St :=
  let st1 : St :=
    { st with total_sent := st.total_sent + 1, last_id := m.id,
              checkpoint := some (pyStr m.id), sendIdx := st.sendIdx + 1,
              examined := st.examined + 1 }
  if p.pause_every_n ≤ st1.total_sent then { st1 with total_sent := 0 } else st1

/-- Events of a successful send (`ts` = `total_sent` before the increment):
the attempt, the checkpoint write, the per-item delay, and the quota pause
when the threshold is reached. -/
def okEvents (p : Params) (ts : Nat) (m : Msg) : List Ev :=
  if p.pause_every_n ≤ ts + 1 then
    [Ev.sendEv m.id, Ev.saveEv m.id, Ev.sleepDelay, Ev.sleepPause p.pause_duration]
  else
    [Ev.sendEv m.id, Ev.saveEv m.id, Ev.sleepDelay]

/-- State after the critical auth halt: `self.is_running = False`, break. -/
def authHaltState (st : St) : St :=
  { st with is_running := false, sendIdx := st.sendIdx + 1 }

/-- State after a FloodWait: only the attempt happened; the loop moves on. -/
def stepFlood (st : St) : St :=
  { st with sendIdx := st.sendIdx + 1, examined := st.examined + 1 }

/-- State after a recoverable per-item error: `errors_count += 1`, move on. -/
def stepSkipFail (st : St) : St :=
  { st with errors_count := st.errors_count + 1, sendIdx := st.sendIdx + 1,
            examined := st.examined + 1 }

/-- The `for msg in messages` loop body of `clone_chat`. -/
def innerLoop (env : Env) (p : Params) : List Msg → St → St × List Ev
  | [], st => (st, [])
  | m :: rest, st =>
    let st := applyStop env st
    if st.is_running = false then (st, [])
    else if m.isService then innerLoop env p rest (serviceSkip st)
    else
      let st := attemptStep st
      match env.send st.sendIdx with
      | SendResult.ok =>
        let r := innerLoop env p rest (stepOk p st m)
        (r.1, okEvents p st.total_sent m ++ r.2)
      | SendResult.floodWait w =>
        let r := innerLoop env p rest (stepFlood st)
        (r.1, Ev.sendEv m.id :: Ev.sleepFlood w (w + 5) :: r.2)
      | SendResult.authKey => (authHaltState st, [Ev.sendEv m.id, Ev.authHaltEv])
      | SendResult.rpc s =>
        if isAuthInvalidatedMsg s then (authHaltState st, [Ev.sendEv m.id, Ev.authHaltEv])
        else
          let r := innerLoop env p rest (stepSkipFail st)
          (r.1, Ev.sendEv m.id :: r.2)
      | SendResult.exc s =>
        if isAuthInvalidatedMsg s then (authHaltState st, [Ev.sendEv m.id, Ev.authHaltEv])
        else
          let r := innerLoop env p rest (stepSkipFail st)
          (r.1, Ev.sendEv m.id :: r.2)

/-- The `while self.is_running` loop of `clone_chat`: fetch a batch (break
on fetch error or empty batch), run the inner loop, repeat. -/
def outerLoop (env : Env) (p : Params) : Nat → St → Option (St × List Ev)
  | 0, _ => none
  | fuel + 1, st =>
    let st := applyStop env st
    if st.is_running = false then some (st, [])
    else if env.fetchErr st.fetchIdx then
      some ({ st with fetchIdx := st.fetchIdx + 1 }, [Ev.fetchEv st.last_id])
    else
      let msgs := fetchBatch env.stream st.last_id p.batch_size
      let st := { st with fetchIdx := st.fetchIdx + 1 }
      if msgs.isEmpty then some (st, [Ev.fetchEv st.last_id])
      else
        let r := innerLoop env p msgs st
        (outerLoop env p fuel r.1).map (fun q => (q.1, Ev.fetchEv st.last_id :: r.2 ++ q.2))

/-- The run state at the top of `clone_chat`: `is_running = True`,
`last_id = self._load_checkpoint(...)`, counters zero. -/
def initSt (env : Env) : St :=
  { is_running := true, last_id := load_checkpoint env.checkpoint, global_counter := 0,
    total_sent := 0, errors_count := 0, checkpoint := env.checkpoint,
    sendIdx := 0, fetchIdx := 0, examined := 0 }

/-- `ChatCloner.clone_chat`: resolve the entities (early error return on
failure), then run the replication loop and build the result dictionary. -/
def clone_chat (env : Env) (p : Params) (fuel : Nat) :
    Option (CloneResult × St × List Ev) :=
  match env.resolve with
  | Except.error e =>
    some ({ success := false, total_messages := 0, errors := 1,
            last_id := none, error := some e }, initSt env, [])
  | Except.ok _ =>
    (outerLoop env p fuel (initSt env)).map
      (fun r => ({ success := true, total_messages := r.1.global_counter,
                   errors := r.1.errors_count, last_id := some r.1.last_id,
                   error := none }, r.1, r.2))

/-- Message ids of the send attempts of a trace, in order. -/
def sendIds : List Ev → List Int
  | [] => []
  | Ev.sendEv i :: t => i :: sendIds t
  | _ :: t => sendIds t

/-- Values written to the checkpoint store during a trace, in order. -/
def saves : List Ev → List Int
  | [] => []
  | Ev.saveEv i :: t => i :: saves t
  | _ :: t => saves t

/-- Whether the trace contains the fatal-auth halt. -/
def hasHalt (tr : List Ev) : Bool :=
  tr.any (fun e => decide (e = Ev.authHaltEv))

/-- Last element of a list, with a default for the empty list. -/
def lastD : List Int → Int → Int
  | [], d => d
  | x :: t, _ => lastD t x

/-- The default tuning parameters of `clone_chat` (`batch_size=100`,
`delay_between_messages=0.8`, `pause_every_n=3000`, `pause_duration=500`). -/
def pD : Params :=
  { batch_size := 100, delay_between_messages := 4/5, pause_every_n := 3000,
    pause_duration := 500, source_topic_id := none, target_topic_id := none }

/-- A non-service message with the given id. -/
def msgN (i : Int) : Msg := { id := i, isService := false }

/-- Baseline oracle: fresh checkpoint, entities resolve, empty stream, no
fetch errors, all sends succeed, no external stop. -/
def envBase : Env :=
  { checkpoint := none, resolve := Except.ok (), stream := [],
    fetchErr := fun _ => false, send := fun _ => SendResult.ok, stopAfter := none }

/-- Ten-message stream with `stop_cloning()` arriving between items 5/6. -/
def envC5 : Env :=
  { envBase with stream := (List.range 10).map (fun i => msgN ((i : Int) + 1)),
                 stopAfter := some 5 }

/-- Whether `get_entity` succeeded for both chats. -/
def resolves (env : Env) : Bool :=
  match env.resolve with
  | Except.ok _ => true
  | Except.error _ => false

/-- Combined state effect of one successful replication (the
`global_counter` increment of the `try` block followed by `stepOk`). -/
def okItem (p : Params) (st : St) (m : Msg) : St :=
  stepOk p (attemptStep st) m

/-- Combined state effect of one FloodWait-throttled attempt: only the
attempt counters move; checkpoint, `total_sent` and `errors_count` are
untouched and the loop proceeds with the next item. -/
def floodItem (st : St) : St :=
  stepFlood (attemptStep st)

/-- Two-message stream whose first send attempt is FloodWait-throttled. -/
def envC1x : Env :=
  { envBase with stream := [msgN 1, msgN 2],
                 send := fun k => if k = 0 then SendResult.floodWait 30 else SendResult.ok }

/-- One-message stream whose send fails with an RPCError whose text matches
the authorization-invalidated pattern. -/
def envC2x : Env :=
  { envBase with stream := [msgN 1],
                 send := fun _ => SendResult.rpc "The authorization has been invalidated" }

/-- Result of the `envC2x` run. -/
def resC2x : CloneResult :=
  { success := true, total_messages := 1, errors := 0, last_id := some 0, error := none }

/-- Final state of the `envC2x` run. -/
def stC2x : St :=
  { is_running := false, last_id := 0, global_counter := 1, total_sent := 0,
    errors_count := 0, checkpoint := none, sendIdx := 1, fetchIdx := 1, examined := 0 }

/-- Trace of the `envC2x` run. -/
def trC2x : List Ev := [Ev.fetchEv 0, Ev.sendEv 1, Ev.authHaltEv]

/-- Two-message stream, both sends succeed. -/
def envC3w : Env := { envBase with stream := [msgN 1, msgN 2] }

/-- Result of the `envC3w` run. -/
def resC3w : CloneResult :=
  { success := true, total_messages := 2, errors := 0, last_id := some 2, error := none }

/-- Final state of the `envC3w` run. -/
def stC3w : St :=
  { is_running := true, last_id := 2, global_counter := 2, total_sent := 2,
    errors_count := 0, checkpoint := some "2", sendIdx := 2, fetchIdx := 2, examined := 2 }

/-- Trace of the `envC3w` run. -/
def trC3w : List Ev :=
  [Ev.fetchEv 0, Ev.sendEv 1, Ev.saveEv 1, Ev.sleepDelay,
   Ev.sendEv 2, Ev.saveEv 2, Ev.sleepDelay, Ev.fetchEv 2]

/-- Parameters with the quota threshold of the quota-pause scenario. -/
def pC4 : Params := { pD with pause_every_n := 3 }

/-- Oracle whose every fetch raises. -/
def envC7x : Env := { envBase with fetchErr := fun _ => true }

/-- Result of the empty-stream `envBase` run (fuel 1). -/
def resC9w : CloneResult :=
  { success := true, total_messages := 0, errors := 0, last_id := some 0, error := none }

/-- Final state of the empty-stream `envBase` run (fuel 1). -/
def stC9w : St :=
  { is_running := true, last_id := 0, global_counter := 0, total_sent := 0,
    errors_count := 0, checkpoint := none, sendIdx := 0, fetchIdx := 1, examined := 0 }

/-- Trace of the empty-stream `envBase` run (fuel 1). -/
def trC9w : List Ev := [Ev.fetchEv 0]

/-! ## Helper lemmas -/

theorem applyStop_of_none (env : Env) (st : St) (h : env.stopAfter = none) :
    applyStop env st = st := by
  simp [applyStop, h]

theorem applyStop_is_running_false (env : Env) (st : St) (h : st.is_running = false) :
    (applyStop env st).is_running = false := by
  unfold applyStop
  cases env.stopAfter with
  | none => exact h
  | some k => dsimp only; split <;> simp [h]

theorem applyStop_last_id (env : Env) (st : St) : (applyStop env st).last_id = st.last_id := by
  unfold applyStop
  cases env.stopAfter with
  | none => rfl
  | some k => dsimp only; split <;> rfl

theorem applyStop_fetchIdx (env : Env) (st : St) : (applyStop env st).fetchIdx = st.fetchIdx := by
  unfold applyStop
  cases env.stopAfter with
  | none => rfl
  | some k => dsimp only; split <;> rfl

theorem applyStop_global_counter (env : Env) (st : St) :
    (applyStop env st).global_counter = st.global_counter := by
  unfold applyStop
  cases env.stopAfter with
  | none => rfl
  | some k => dsimp only; split <;> rfl

theorem applyStop_errors_count (env : Env) (st : St) :
    (applyStop env st).errors_count = st.errors_count := by
  unfold applyStop
  cases env.stopAfter with
  | none => rfl
  | some k => dsimp only; split <;> rfl

theorem applyStop_checkpoint (env : Env) (st : St) :
    (applyStop env st).checkpoint = st.checkpoint := by
  unfold applyStop
  cases env.stopAfter with
  | none => rfl
  | some k => dsimp only; split <;> rfl

theorem okItem_is_running (p : Params) (st : St) (m : Msg) :
    (okItem p st m).is_running = st.is_running := by
  simp only [okItem, stepOk, attemptStep]; split <;> rfl

theorem okItem_sendIdx (p : Params) (st : St) (m : Msg) :
    (okItem p st m).sendIdx = st.sendIdx + 1 := by
  simp only [okItem, stepOk, attemptStep]; split <;> rfl

theorem okItem_last_id (p : Params) (st : St) (m : Msg) :
    (okItem p st m).last_id = m.id := by
  simp only [okItem, stepOk, attemptStep]; split <;> rfl

theorem okItem_checkpoint (p : Params) (st : St) (m : Msg) :
    (okItem p st m).checkpoint = some (pyStr m.id) := by
  simp only [okItem, stepOk, attemptStep]; split <;> rfl

theorem okItem_global_counter (p : Params) (st : St) (m : Msg) :
    (okItem p st m).global_counter = st.global_counter + 1 := by
  simp only [okItem, stepOk, attemptStep]; split <;> rfl

theorem okItem_errors_count (p : Params) (st : St) (m : Msg) :
    (okItem p st m).errors_count = st.errors_count := by
  simp only [okItem, stepOk, attemptStep]; split <;> rfl

theorem okItem_examined (p : Params) (st : St) (m : Msg) :
    (okItem p st m).examined = st.examined + 1 := by
  simp only [okItem, stepOk, attemptStep]; split <;> rfl

theorem okItem_total_sent (p : Params) (st : St) (m : Msg) :
    (okItem p st m).total_sent =
      if p.pause_every_n ≤ st.total_sent + 1 then 0 else st.total_sent + 1 := by
  simp only [okItem, stepOk, attemptStep]; split <;> simp_all

theorem attemptStep_sendIdx (st : St) : (attemptStep st).sendIdx = st.sendIdx := rfl

theorem attemptStep_total_sent (st : St) : (attemptStep st).total_sent = st.total_sent := rfl

theorem attemptStep_global_counter (st : St) :
    (attemptStep st).global_counter = st.global_counter + 1 := rfl

theorem attemptStep_is_running (st : St) : (attemptStep st).is_running = st.is_running := rfl

theorem serviceSkip_global_counter (st : St) :
    (serviceSkip st).global_counter = st.global_counter := rfl

theorem serviceSkip_is_running (st : St) : (serviceSkip st).is_running = st.is_running := rfl

/-- Unfolding of one successful inner-loop iteration. -/
theorem innerLoop_ok (env : Env) (p : Params) (st : St) (m : Msg) (rest : List Msg)
    (hstop : env.stopAfter = none) (hrun : st.is_running = true)
    (hm : m.isService = false) (hsend : env.send st.sendIdx = SendResult.ok) :
    innerLoop env p (m :: rest) st =
      ((innerLoop env p rest (okItem p st m)).1,
       okEvents p st.total_sent m ++ (innerLoop env p rest (okItem p st m)).2) := by
  simp only [innerLoop, applyStop_of_none env st hstop, hrun, hm, okItem, attemptStep_sendIdx,
    attemptStep_total_sent, hsend]
  simp

/-! ## C10: checkpoint file name is not injective over identifier pairs -/

/-- C10: the checkpoint file name joins the source and destination ids with
underscores, so the distinct pairs `("1_2", "3")` and `("1", "2_3")` map to
the same checkpoint file. -/
theorem C10_thm :
    checkpointFilename "1_2" "3" = checkpointFilename "1" "2_3" ∧
    (decide ((("1_2", "3") : String × String) = ("1", "2_3"))) = false := by
  constructor
  · rfl
  · decide

/-! ## C5: cooperative stop between items 5 and 6 -/

/-- C5: with the external stop signal arriving between items 5 and 6 of a
ten-item batch whose first five sends succeed, the run returns success with
a reported total of 5, the send attempts are exactly items 1..5 (none for
items 6..10), and it terminates with the running flag false and no
fatal-auth halt: the cooperative STOPPED outcome. -/
theorem C5_thm :
    (clone_chat envC5 pD 3).map
      (fun r => (r.1.success, r.1.total_messages, sendIds r.2.2,
                 r.2.1.is_running, hasHalt r.2.2)) =
      some (true, 5, [1, 2, 3, 4, 5], false, false) := by decide

/-! ## C1: FloodWait throttling -/

/-- C1 counterexample: in a two-message run whose first send attempt is
throttled by `FloodWaitError(30)`, the next send attempt is for item 2,
not a retry of item 1 — the attempt sequence of the whole run is `[1, 2]`,
so the throttled item is never retried. -/
theorem C1_counterexample :
    envC1x.send 0 = SendResult.floodWait 30 ∧
    (clone_chat envC1x pD 3).map (fun r => sendIds r.2.2) = some [1, 2] := by
  exact ⟨by decide, by decide⟩

/-- C1 (amended): after a send fails with `FloodWaitError(w)` the engine
sleeps exactly `w + 5` seconds before anything further happens (so at least
`w` plus the fixed margin 5 before the next send attempt), but it does not
retry the throttled item: the loop proceeds with the rest of the batch,
with `last_id`, the checkpoint, `total_sent` and `errors_count` unchanged,
so the throttled item is re-fetched later only if no later item of the
batch is replicated first. -/
theorem C1_thm (env : Env) (p : Params) (st : St) (m : Msg) (rest : List Msg) (w : Nat)
    (hstop : env.stopAfter = none) (hrun : st.is_running = true)
    (hm : m.isService = false)
    (hsend : env.send st.sendIdx = SendResult.floodWait w) :
    innerLoop env p (m :: rest) st =
      ((innerLoop env p rest (floodItem st)).1,
       Ev.sendEv m.id :: Ev.sleepFlood w (w + 5) ::
         (innerLoop env p rest (floodItem st)).2) ∧
    (floodItem st).last_id = st.last_id ∧
    (floodItem st).checkpoint = st.checkpoint ∧
    (floodItem st).total_sent = st.total_sent ∧
    (floodItem st).errors_count = st.errors_count := by
  refine ⟨?_, rfl, rfl, rfl, rfl⟩
  simp only [innerLoop, applyStop_of_none env st hstop, hrun, hm, floodItem,
    attemptStep_sendIdx, hsend]
  simp

/-- C1 witness: the amended theorem applied to the concrete throttled run
`envC1x` at its initial state. -/
theorem C1_witness :
    innerLoop envC1x pD [msgN 1, msgN 2] (initSt envC1x) =
      ((innerLoop envC1x pD [msgN 2] (floodItem (initSt envC1x))).1,
       Ev.sendEv 1 :: Ev.sleepFlood 30 35 ::
         (innerLoop envC1x pD [msgN 2] (floodItem (initSt envC1x))).2) ∧
    (floodItem (initSt envC1x)).last_id = (initSt envC1x).last_id ∧
    (floodItem (initSt envC1x)).checkpoint = (initSt envC1x).checkpoint ∧
    (floodItem (initSt envC1x)).total_sent = (initSt envC1x).total_sent ∧
    (floodItem (initSt envC1x)).errors_count = (initSt envC1x).errors_count :=
  C1_thm envC1x pD (initSt envC1x) (msgN 1) [msgN 2] 30 rfl rfl rfl (by decide)

/-! ## C4: quota pause after pause_every_n successes -/

/-- C4: with `pause_every_n = 3` and a fresh quota counter, after items
1, 2, 3 replicate successfully the engine emits the extended
`sleepPause pause_duration` before anything of item 4 (in particular before
its send attempt), and the quota counter `total_sent` is 0 after the
pause. -/
theorem C4_thm (env : Env) (p : Params) (st : St) (m1 m2 m3 m4 : Msg) (rest : List Msg)
    (hstop : env.stopAfter = none) (hrun : st.is_running = true)
    (hp : p.pause_every_n = 3) (hts : st.total_sent = 0)
    (hm1 : m1.isService = false) (hm2 : m2.isService = false) (hm3 : m3.isService = false)
    (hs1 : env.send st.sendIdx = SendResult.ok)
    (hs2 : env.send (st.sendIdx + 1) = SendResult.ok)
    (hs3 : env.send (st.sendIdx + 2) = SendResult.ok) :
    innerLoop env p (m1 :: m2 :: m3 :: m4 :: rest) st =
      ((innerLoop env p (m4 :: rest) (okItem p (okItem p (okItem p st m1) m2) m3)).1,
       Ev.sendEv m1.id :: Ev.saveEv m1.id :: Ev.sleepDelay ::
       Ev.sendEv m2.id :: Ev.saveEv m2.id :: Ev.sleepDelay ::
       Ev.sendEv m3.id :: Ev.saveEv m3.id :: Ev.sleepDelay ::
       Ev.sleepPause p.pause_duration ::
         (innerLoop env p (m4 :: rest) (okItem p (okItem p (okItem p st m1) m2) m3)).2) ∧
    (okItem p (okItem p (okItem p st m1) m2) m3).total_sent = 0 := by
  have t1 : (okItem p st m1).total_sent = 1 := by
    rw [okItem_total_sent, hp, hts]; norm_num
  have t2 : (okItem p (okItem p st m1) m2).total_sent = 2 := by
    rw [okItem_total_sent, hp, t1]; norm_num
  have t3 : (okItem p (okItem p (okItem p st m1) m2) m3).total_sent = 0 := by
    rw [okItem_total_sent, hp, t2]; norm_num
  have r1 : (okItem p st m1).is_running = true := by rw [okItem_is_running]; exact hrun
  have r2 : (okItem p (okItem p st m1) m2).is_running = true := by
    rw [okItem_is_running]; exact r1
  have i1 : (okItem p st m1).sendIdx = st.sendIdx + 1 := okItem_sendIdx p st m1
  have i2 : (okItem p (okItem p st m1) m2).sendIdx = st.sendIdx + 2 := by
    rw [okItem_sendIdx, i1]
  have e1 := innerLoop_ok env p st m1 (m2 :: m3 :: m4 :: rest) hstop hrun hm1 hs1
  have e2 := innerLoop_ok env p (okItem p st m1) m2 (m3 :: m4 :: rest) hstop r1 hm2
    (by rw [i1]; exact hs2)
  have e3 := innerLoop_ok env p (okItem p (okItem p st m1) m2) m3 (m4 :: rest) hstop r2 hm3
    (by rw [i2]; exact hs3)
  refine ⟨?_, t3⟩
  rw [e1, e2, e3]
  simp [okEvents, hp, hts, t1, t2]

/-- C4 witness: the theorem applied to a concrete four-message batch with
`pause_every_n = 3` from the initial state. -/
theorem C4_witness :
    innerLoop envBase pC4 [msgN 1, msgN 2, msgN 3, msgN 4] (initSt envBase) =
      ((innerLoop envBase pC4 [msgN 4]
          (okItem pC4 (okItem pC4 (okItem pC4 (initSt envBase) (msgN 1)) (msgN 2)) (msgN 3))).1,
       Ev.sendEv 1 :: Ev.saveEv 1 :: Ev.sleepDelay ::
       Ev.sendEv 2 :: Ev.saveEv 2 :: Ev.sleepDelay ::
       Ev.sendEv 3 :: Ev.saveEv 3 :: Ev.sleepDelay ::
       Ev.sleepPause 500 ::
         (innerLoop envBase pC4 [msgN 4]
           (okItem pC4 (okItem pC4 (okItem pC4 (initSt envBase) (msgN 1)) (msgN 2)) (msgN 3))).2) ∧
    (okItem pC4 (okItem pC4 (okItem pC4 (initSt envBase) (msgN 1)) (msgN 2)) (msgN 3)).total_sent = 0 :=
  C4_thm envBase pC4 (initSt envBase) (msgN 1) (msgN 2) (msgN 3) (msgN 4) []
    rfl rfl rfl rfl rfl rfl rfl rfl rfl rfl

/-! ## C7: batch-fetch errors terminate the run -/

/-- C7: whenever a batch fetch raises, the run terminates right there: the
loop returns with only that single fetch event — the fetch is not retried,
no item of the batch is attempted (no send event), and no further
iteration happens. -/
theorem C7_thm (env : Env) (p : Params) (st : St) (fuel : Nat)
    (hrun : (applyStop env st).is_running = true)
    (herr : env.fetchErr st.fetchIdx = true) :
    outerLoop env p (fuel + 1) st =
      some ({ applyStop env st with fetchIdx := st.fetchIdx + 1 },
            [Ev.fetchEv st.last_id]) := by
  simp only [outerLoop, applyStop_fetchIdx, applyStop_last_id, hrun, herr]
  simp

/-- C7 witness: the theorem applied to the always-failing-fetch oracle
`envC7x` at the initial state. -/
theorem C7_witness :
    outerLoop envC7x pD 1 (initSt envC7x) =
      some ({ applyStop envC7x (initSt envC7x) with fetchIdx := 1 }, [Ev.fetchEv 0]) :=
  C7_thm envC7x pD (initSt envC7x) 0 (by decide) (by decide)

/-! ## C8: empty first fetch completes with counts unchanged -/

/-- C8: if the first batch fetch of a run returns zero items, `clone_chat`
returns immediately with success, `total_messages = 0`, `errors = 0` and
`last_id` still equal to the loaded checkpoint, and the final state is the
initial one (only the fetch count moved) with the running flag still true:
the COMPLETED outcome, counts unchanged from run start. -/
theorem C8_thm (env : Env) (p : Params) (fuel : Nat)
    (hres : env.resolve = Except.ok ())
    (hstop : env.stopAfter = none)
    (hfe : env.fetchErr 0 = false)
    (hempty : fetchBatch env.stream (load_checkpoint env.checkpoint) p.batch_size = []) :
    clone_chat env p (fuel + 1) =
      some ({ success := true, total_messages := 0, errors := 0,
              last_id := some (load_checkpoint env.checkpoint), error := none },
            { initSt env with fetchIdx := 1 },
            [Ev.fetchEv (load_checkpoint env.checkpoint)]) := by
  have hid : (initSt env).is_running = true := rfl
  simp only [clone_chat, hres, outerLoop, applyStop_of_none env (initSt env) hstop]
  simp [initSt, hfe, hempty]

/-- C8 witness: the theorem applied to the empty-stream oracle `envBase`. -/
theorem C8_witness :
    fetchBatch envBase.stream (load_checkpoint envBase.checkpoint) pD.batch_size = [] ∧
    clone_chat envBase pD 1 =
      some ({ success := true, total_messages := 0, errors := 0,
              last_id := some (load_checkpoint envBase.checkpoint), error := none },
            { initSt envBase with fetchIdx := 1 },
            [Ev.fetchEv (load_checkpoint envBase.checkpoint)]) :=
  ⟨rfl, C8_thm envBase pD 0 rfl rfl rfl rfl⟩

/-! ## C9: the success flag only reflects entity resolution -/

/-- C9: whenever `clone_chat` returns, its success flag is true exactly
when entity resolution succeeded: every run that enters the replication
loop returns `success = True` (auth halts and batch-fetch errors
included), and the early entity-resolution failure is the only
`success = False` return. -/
theorem C9_thm (env : Env) (p : Params) (fuel : Nat) (res : CloneResult) (st : St)
    (tr : List Ev) (h : clone_chat env p fuel = some (res, st, tr)) :
    res.success = resolves env := by
  unfold clone_chat at h
  cases hres : env.resolve with
  | error e =>
    rw [hres] at h
    simp only [Option.some.injEq, Prod.mk.injEq] at h
    obtain ⟨h1, -⟩ := h
    rw [← h1]
    simp [resolves, hres]
  | ok u =>
    cases u
    rw [hres] at h
    rw [Option.map_eq_some'] at h
    obtain ⟨q, -, hf⟩ := h
    simp only [Prod.mk.injEq] at hf
    obtain ⟨h1, -⟩ := hf
    rw [← h1]
    simp [resolves, hres]

/-- C9 witness: the theorem applied to the concrete empty-stream run. -/
theorem C9_witness : resC9w.success = resolves envBase :=
  C9_thm envBase pD 1 resC9w stC9w trC9w (by decide)

/-! ## Trace bookkeeping lemmas -/

theorem sendIds_append (a b : List Ev) : sendIds (a ++ b) = sendIds a ++ sendIds b := by
  induction a with
  | nil => rfl
  | cons e t ih => cases e <;> simp [sendIds, ih]

theorem saves_append (a b : List Ev) : saves (a ++ b) = saves a ++ saves b := by
  induction a with
  | nil => rfl
  | cons e t ih => cases e <;> simp [saves, ih]

theorem sendIds_okEvents (p : Params) (ts : Nat) (m : Msg) :
    sendIds (okEvents p ts m) = [m.id] := by
  unfold okEvents; split <;> simp [sendIds]

theorem saves_okEvents (p : Params) (ts : Nat) (m : Msg) :
    saves (okEvents p ts m) = [m.id] := by
  unfold okEvents; split <;> simp [saves]

theorem halt_notMem_okEvents (p : Params) (ts : Nat) (m : Msg) :
    Ev.authHaltEv ∉ okEvents p ts m := by
  unfold okEvents; split <;> simp

theorem stepOk_global_counter (p : Params) (st : St) (m : Msg) :
    (stepOk p st m).global_counter = st.global_counter := by
  simp only [stepOk]; split <;> rfl

theorem stepOk_is_running (p : Params) (st : St) (m : Msg) :
    (stepOk p st m).is_running = st.is_running := by
  simp only [stepOk]; split <;> rfl

theorem outerLoop_stopped (env : Env) (p : Params) (f : Nat) (st : St)
    (h : st.is_running = false) :
    outerLoop env p (f + 1) st = some (applyStop env st, []) := by
  have h2 := applyStop_is_running_false env st h
  simp [outerLoop, h2]

theorem stepFlood_global_counter (st : St) :
    (stepFlood st).global_counter = st.global_counter := rfl

theorem stepSkipFail_global_counter (st : St) :
    (stepSkipFail st).global_counter = st.global_counter := rfl

theorem authHaltState_global_counter (st : St) :
    (authHaltState st).global_counter = st.global_counter := rfl

theorem authHaltState_is_running (st : St) : (authHaltState st).is_running = false := rfl

/-- Branch lemma: inner-loop iteration whose flag check sees `False`. -/
theorem innerLoop_stopHit (env : Env) (p : Params) (m : Msg) (rest : List Msg) (st : St)
    (hrun : (applyStop env st).is_running = false) :
    innerLoop env p (m :: rest) st = (applyStop env st, []) := by
  simp [innerLoop, hrun]

/-- Branch lemma: inner-loop iteration that skips a service message. -/
theorem innerLoop_service (env : Env) (p : Params) (m : Msg) (rest : List Msg) (st : St)
    (hrun : (applyStop env st).is_running = true) (hm : m.isService = true) :
    innerLoop env p (m :: rest) st = innerLoop env p rest (serviceSkip (applyStop env st)) := by
  simp [innerLoop, hrun, hm]

/-- Branch lemma: inner-loop iteration with a successful send. -/
theorem innerLoop_sendOk (env : Env) (p : Params) (m : Msg) (rest : List Msg) (st : St)
    (hrun : (applyStop env st).is_running = true) (hm : m.isService = false)
    (hs : env.send (applyStop env st).sendIdx = SendResult.ok) :
    innerLoop env p (m :: rest) st =
      ((innerLoop env p rest (stepOk p (attemptStep (applyStop env st)) m)).1,
       okEvents p (applyStop env st).total_sent m ++
         (innerLoop env p rest (stepOk p (attemptStep (applyStop env st)) m)).2) := by
  simp [innerLoop, hrun, hm, attemptStep_sendIdx, attemptStep_total_sent, hs]

/-- Branch lemma: inner-loop iteration hit by a FloodWait. -/
theorem innerLoop_sendFlood (env : Env) (p : Params) (m : Msg) (rest : List Msg) (st : St)
    (w : Nat) (hrun : (applyStop env st).is_running = true) (hm : m.isService = false)
    (hs : env.send (applyStop env st).sendIdx = SendResult.floodWait w) :
    innerLoop env p (m :: rest) st =
      ((innerLoop env p rest (stepFlood (attemptStep (applyStop env st)))).1,
       Ev.sendEv m.id :: Ev.sleepFlood w (w + 5) ::
         (innerLoop env p rest (stepFlood (attemptStep (applyStop env st)))).2) := by
  simp [innerLoop, hrun, hm, attemptStep_sendIdx, hs]

/-- Branch lemma: inner-loop iteration hit by an AuthKeyError. -/
theorem innerLoop_sendAuthKey (env : Env) (p : Params) (m : Msg) (rest : List Msg) (st : St)
    (hrun : (applyStop env st).is_running = true) (hm : m.isService = false)
    (hs : env.send (applyStop env st).sendIdx = SendResult.authKey) :
    innerLoop env p (m :: rest) st =
      (authHaltState (attemptStep (applyStop env st)), [Ev.sendEv m.id, Ev.authHaltEv]) := by
  simp [innerLoop, hrun, hm, attemptStep_sendIdx, hs]

/-- Branch lemma: inner-loop iteration hit by an RPCError whose text
matches the authorization-invalidated pattern. -/
theorem innerLoop_sendRpcAuth (env : Env) (p : Params) (m : Msg) (rest : List Msg) (st : St)
    (s2 : String) (hrun : (applyStop env st).is_running = true) (hm : m.isService = false)
    (hs : env.send (applyStop env st).sendIdx = SendResult.rpc s2)
    (ha : isAuthInvalidatedMsg s2 = true) :
    innerLoop env p (m :: rest) st =
      (authHaltState (attemptStep (applyStop env st)), [Ev.sendEv m.id, Ev.authHaltEv]) := by
  simp [innerLoop, hrun, hm, attemptStep_sendIdx, hs, ha]

/-- Branch lemma: inner-loop iteration hit by any other RPCError. -/
theorem innerLoop_sendRpcOther (env : Env) (p : Params) (m : Msg) (rest : List Msg) (st : St)
    (s2 : String) (hrun : (applyStop env st).is_running = true) (hm : m.isService = false)
    (hs : env.send (applyStop env st).sendIdx = SendResult.rpc s2)
    (ha : isAuthInvalidatedMsg s2 = false) :
    innerLoop env p (m :: rest) st =
      ((innerLoop env p rest (stepSkipFail (attemptStep (applyStop env st)))).1,
       Ev.sendEv m.id ::
         (innerLoop env p rest (stepSkipFail (attemptStep (applyStop env st)))).2) := by
  simp [innerLoop, hrun, hm, attemptStep_sendIdx, hs, ha]

/-- Branch lemma: inner-loop iteration hit by a generic exception whose
text matches the authorization-invalidated pattern. -/
theorem innerLoop_sendExcAuth (env : Env) (p : Params) (m : Msg) (rest : List Msg) (st : St)
    (s2 : String) (hrun : (applyStop env st).is_running = true) (hm : m.isService = false)
    (hs : env.send (applyStop env st).sendIdx = SendResult.exc s2)
    (ha : isAuthInvalidatedMsg s2 = true) :
    innerLoop env p (m :: rest) st =
      (authHaltState (attemptStep (applyStop env st)), [Ev.sendEv m.id, Ev.authHaltEv]) := by
  simp [innerLoop, hrun, hm, attemptStep_sendIdx, hs, ha]

/-- Branch lemma: inner-loop iteration hit by any other generic exception. -/
theorem innerLoop_sendExcOther (env : Env) (p : Params) (m : Msg) (rest : List Msg) (st : St)
    (s2 : String) (hrun : (applyStop env st).is_running = true) (hm : m.isService = false)
    (hs : env.send (applyStop env st).sendIdx = SendResult.exc s2)
    (ha : isAuthInvalidatedMsg s2 = false) :
    innerLoop env p (m :: rest) st =
      ((innerLoop env p rest (stepSkipFail (attemptStep (applyStop env st)))).1,
       Ev.sendEv m.id ::
         (innerLoop env p rest (stepSkipFail (attemptStep (applyStop env st)))).2) := by
  simp [innerLoop, hrun, hm, attemptStep_sendIdx, hs, ha]

/-- The final `global_counter` counts exactly the send attempts of the
inner-loop trace. -/
theorem innerLoop_gc (env : Env) (p : Params) (msgs : List Msg) : ∀ st : St,
    (innerLoop env p msgs st).1.global_counter =
      st.global_counter + (sendIds (innerLoop env p msgs st).2).length := by
  induction msgs with
  | nil => intro st; simp [innerLoop, sendIds]
  | cons m rest ih =>
    intro st
    cases hrun : (applyStop env st).is_running with
    | false =>
      rw [innerLoop_stopHit env p m rest st hrun]
      simp [sendIds, applyStop_global_counter]
    | true =>
      cases hm : m.isService with
      | true =>
        rw [innerLoop_service env p m rest st hrun hm, ih]
        simp [serviceSkip_global_counter, applyStop_global_counter]
      | false =>
        cases hs : env.send (applyStop env st).sendIdx with
        | ok =>
          rw [innerLoop_sendOk env p m rest st hrun hm hs]
          dsimp only
          rw [ih, stepOk_global_counter, attemptStep_global_counter,
            applyStop_global_counter]
          simp only [sendIds_append, sendIds_okEvents, List.length_append]
          simp [sendIds]
          omega
        | floodWait w =>
          rw [innerLoop_sendFlood env p m rest st w hrun hm hs]
          dsimp only
          rw [ih, stepFlood_global_counter, attemptStep_global_counter,
            applyStop_global_counter]
          simp [sendIds]
          omega
        | authKey =>
          rw [innerLoop_sendAuthKey env p m rest st hrun hm hs]
          dsimp only
          rw [authHaltState_global_counter, attemptStep_global_counter,
            applyStop_global_counter]
          simp [sendIds]
        | rpc s2 =>
          cases ha : isAuthInvalidatedMsg s2 with
          | true =>
            rw [innerLoop_sendRpcAuth env p m rest st s2 hrun hm hs ha]
            dsimp only
            rw [authHaltState_global_counter, attemptStep_global_counter,
              applyStop_global_counter]
            simp [sendIds]
          | false =>
            rw [innerLoop_sendRpcOther env p m rest st s2 hrun hm hs ha]
            dsimp only
            rw [ih, stepSkipFail_global_counter, attemptStep_global_counter,
              applyStop_global_counter]
            simp [sendIds]
            omega
        | exc s2 =>
          cases ha : isAuthInvalidatedMsg s2 with
          | true =>
            rw [innerLoop_sendExcAuth env p m rest st s2 hrun hm hs ha]
            dsimp only
            rw [authHaltState_global_counter, attemptStep_global_counter,
              applyStop_global_counter]
            simp [sendIds]
          | false =>
            rw [innerLoop_sendExcOther env p m rest st s2 hrun hm hs ha]
            dsimp only
            rw [ih, stepSkipFail_global_counter, attemptStep_global_counter,
              applyStop_global_counter]
            simp [sendIds]
            omega

theorem fetchStep_global_counter (st : St) :
    (fetchStep st).global_counter = st.global_counter := rfl

theorem fetchStep_is_running (st : St) : (fetchStep st).is_running = st.is_running := rfl

theorem fetchStep_last_id (st : St) : (fetchStep st).last_id = st.last_id := rfl

theorem fetchStep_checkpoint (st : St) : (fetchStep st).checkpoint = st.checkpoint := rfl

theorem fetchStep_errors_count (st : St) :
    (fetchStep st).errors_count = st.errors_count := rfl

/-- Branch lemma: one `while` iteration that hits a fetch error. -/
theorem outerLoop_fetchErr (env : Env) (p : Params) (f : Nat) (st : St)
    (hrun : (applyStop env st).is_running = true)
    (hfe : env.fetchErr (applyStop env st).fetchIdx = true) :
    outerLoop env p (f + 1) st =
      some (fetchStep (applyStop env st), [Ev.fetchEv (applyStop env st).last_id]) := by
  simp [outerLoop, fetchStep, hrun, hfe]

/-- Branch lemma: one `while` iteration that fetches an empty batch. -/
theorem outerLoop_empty (env : Env) (p : Params) (f : Nat) (st : St)
    (hrun : (applyStop env st).is_running = true)
    (hfe : env.fetchErr (applyStop env st).fetchIdx = false)
    (hem : (fetchBatch env.stream (applyStop env st).last_id p.batch_size).isEmpty = true) :
    outerLoop env p (f + 1) st =
      some (fetchStep (applyStop env st), [Ev.fetchEv (applyStop env st).last_id]) := by
  simp [outerLoop, fetchStep, hrun, hfe, hem]

/-- Branch lemma: one `while` iteration that processes a non-empty batch
and continues. -/
theorem outerLoop_cont (env : Env) (p : Params) (f : Nat) (st : St)
    (hrun : (applyStop env st).is_running = true)
    (hfe : env.fetchErr (applyStop env st).fetchIdx = false)
    (hem : (fetchBatch env.stream (applyStop env st).last_id p.batch_size).isEmpty = false) :
    outerLoop env p (f + 1) st =
      (outerLoop env p f
          (innerLoop env p (fetchBatch env.stream (applyStop env st).last_id p.batch_size)
            (fetchStep (applyStop env st))).1).map
        (fun q => (q.1, Ev.fetchEv (applyStop env st).last_id ::
          (innerLoop env p (fetchBatch env.stream (applyStop env st).last_id p.batch_size)
            (fetchStep (applyStop env st))).2 ++ q.2)) := by
  simp [outerLoop, fetchStep, hrun, hfe, hem]

/-- Branch lemma: one `while` iteration whose flag check sees `False`. -/
theorem outerLoop_halted (env : Env) (p : Params) (f : Nat) (st : St)
    (hrun : (applyStop env st).is_running = false) :
    outerLoop env p (f + 1) st = some (applyStop env st, []) := by
  simp [outerLoop, hrun]

/-- The final `global_counter` counts exactly the send attempts of the
whole-run trace. -/
theorem outerLoop_gc (env : Env) (p : Params) (fuel : Nat) : ∀ (st st' : St) (tr : List Ev),
    outerLoop env p fuel st = some (st', tr) →
    st'.global_counter = st.global_counter + (sendIds tr).length := by
  induction fuel with
  | zero => intro st st' tr h; simp [outerLoop] at h
  | succ f ih =>
    intro st st' tr h
    cases hrun : (applyStop env st).is_running with
    | false =>
      rw [outerLoop_halted env p f st hrun] at h
      simp only [Option.some.injEq, Prod.mk.injEq] at h
      obtain ⟨h1, h2⟩ := h
      subst h1 h2
      simp [sendIds, applyStop_global_counter]
    | true =>
      cases hfe : env.fetchErr (applyStop env st).fetchIdx with
      | true =>
        rw [outerLoop_fetchErr env p f st hrun hfe] at h
        simp only [Option.some.injEq, Prod.mk.injEq] at h
        obtain ⟨h1, h2⟩ := h
        subst h1 h2
        simp [sendIds, fetchStep_global_counter, applyStop_global_counter]
      | false =>
        cases hem : (fetchBatch env.stream (applyStop env st).last_id p.batch_size).isEmpty with
        | true =>
          rw [outerLoop_empty env p f st hrun hfe hem] at h
          simp only [Option.some.injEq, Prod.mk.injEq] at h
          obtain ⟨h1, h2⟩ := h
          subst h1 h2
          simp [sendIds, fetchStep_global_counter, applyStop_global_counter]
        | false =>
          rw [outerLoop_cont env p f st hrun hfe hem] at h
          rw [Option.map_eq_some'] at h
          obtain ⟨q, hq, hfq⟩ := h
          simp only [Prod.mk.injEq] at hfq
          obtain ⟨h1, h2⟩ := hfq
          subst h1 h2
          have hi := innerLoop_gc env p
            (fetchBatch env.stream (applyStop env st).last_id p.batch_size)
            (fetchStep (applyStop env st))
          have ho := ih _ _ _ hq
          rw [ho, hi, fetchStep_global_counter, applyStop_global_counter env st]
          simp only [sendIds, List.append_eq, sendIds_append, List.length_append]
          omega

/-- In any inner-loop trace the fatal-auth halt, when present, is the very
last event, and the loop then ends with the running flag false. -/
theorem innerLoop_halt (env : Env) (p : Params) (msgs : List Msg) : ∀ st : St,
    Ev.authHaltEv ∉ (innerLoop env p msgs st).2 ∨
    (∃ w, (innerLoop env p msgs st).2 = w ++ [Ev.authHaltEv] ∧ Ev.authHaltEv ∉ w ∧
      (innerLoop env p msgs st).1.is_running = false) := by
  induction msgs with
  | nil => intro st; left; simp [innerLoop]
  | cons m rest ih =>
    intro st
    cases hrun : (applyStop env st).is_running with
    | false => left; rw [innerLoop_stopHit env p m rest st hrun]; simp
    | true =>
      cases hm : m.isService with
      | true =>
        rw [innerLoop_service env p m rest st hrun hm]
        exact ih _
      | false =>
        cases hs : env.send (applyStop env st).sendIdx with
        | ok =>
          rw [innerLoop_sendOk env p m rest st hrun hm hs]
          dsimp only
          rcases ih (stepOk p (attemptStep (applyStop env st)) m) with h1 | ⟨w, hw, hnw, hflag⟩
          · left
            simp only [List.mem_append]
            exact fun hc => hc.elim (fun hc1 => halt_notMem_okEvents p _ m hc1) h1
          · right
            refine ⟨okEvents p (applyStop env st).total_sent m ++ w, ?_, ?_, hflag⟩
            · rw [hw, List.append_assoc]
            · simp only [List.mem_append]
              exact fun hc => hc.elim (fun hc1 => halt_notMem_okEvents p _ m hc1) hnw
        | floodWait w0 =>
          rw [innerLoop_sendFlood env p m rest st w0 hrun hm hs]
          dsimp only
          rcases ih (stepFlood (attemptStep (applyStop env st))) with h1 | ⟨w, hw, hnw, hflag⟩
          · left; simp [h1]
          · right
            refine ⟨Ev.sendEv m.id :: Ev.sleepFlood w0 (w0 + 5) :: w, ?_, ?_, hflag⟩
            · rw [hw]; rfl
            · simp [hnw]
        | authKey =>
          rw [innerLoop_sendAuthKey env p m rest st hrun hm hs]
          right
          exact ⟨[Ev.sendEv m.id], rfl, by simp, rfl⟩
        | rpc s2 =>
          cases ha : isAuthInvalidatedMsg s2 with
          | true =>
            rw [innerLoop_sendRpcAuth env p m rest st s2 hrun hm hs ha]
            right
            exact ⟨[Ev.sendEv m.id], rfl, by simp, rfl⟩
          | false =>
            rw [innerLoop_sendRpcOther env p m rest st s2 hrun hm hs ha]
            dsimp only
            rcases ih (stepSkipFail (attemptStep (applyStop env st))) with h1 | ⟨w, hw, hnw, hflag⟩
            · left; simp [h1]
            · right
              refine ⟨Ev.sendEv m.id :: w, ?_, ?_, hflag⟩
              · rw [hw]; rfl
              · simp [hnw]
        | exc s2 =>
          cases ha : isAuthInvalidatedMsg s2 with
          | true =>
            rw [innerLoop_sendExcAuth env p m rest st s2 hrun hm hs ha]
            right
            exact ⟨[Ev.sendEv m.id], rfl, by simp, rfl⟩
          | false =>
            rw [innerLoop_sendExcOther env p m rest st s2 hrun hm hs ha]
            dsimp only
            rcases ih (stepSkipFail (attemptStep (applyStop env st))) with h1 | ⟨w, hw, hnw, hflag⟩
            · left; simp [h1]
            · right
              refine ⟨Ev.sendEv m.id :: w, ?_, ?_, hflag⟩
              · rw [hw]; rfl
              · simp [hnw]

/-- In any whole-run trace the fatal-auth halt, when present, is the very
last event, and the run then ends with the running flag false. -/
theorem outerLoop_halt (env : Env) (p : Params) (fuel : Nat) : ∀ (st st' : St) (tr : List Ev),
    outerLoop env p fuel st = some (st', tr) →
    Ev.authHaltEv ∉ tr ∨
    (∃ w, tr = w ++ [Ev.authHaltEv] ∧ Ev.authHaltEv ∉ w ∧ st'.is_running = false) := by
  induction fuel with
  | zero => intro st st' tr h; simp [outerLoop] at h
  | succ f ih =>
    intro st st' tr h
    cases hrun : (applyStop env st).is_running with
    | false =>
      rw [outerLoop_halted env p f st hrun] at h
      simp only [Option.some.injEq, Prod.mk.injEq] at h
      obtain ⟨h1, h2⟩ := h
      subst h1 h2
      left; simp
    | true =>
      cases hfe : env.fetchErr (applyStop env st).fetchIdx with
      | true =>
        rw [outerLoop_fetchErr env p f st hrun hfe] at h
        simp only [Option.some.injEq, Prod.mk.injEq] at h
        obtain ⟨h1, h2⟩ := h
        subst h1 h2
        left; simp
      | false =>
        cases hem : (fetchBatch env.stream (applyStop env st).last_id p.batch_size).isEmpty with
        | true =>
          rw [outerLoop_empty env p f st hrun hfe hem] at h
          simp only [Option.some.injEq, Prod.mk.injEq] at h
          obtain ⟨h1, h2⟩ := h
          subst h1 h2
          left; simp
        | false =>
          rw [outerLoop_cont env p f st hrun hfe hem] at h
          rw [Option.map_eq_some'] at h
          obtain ⟨q, hq, hfq⟩ := h
          simp only [Prod.mk.injEq] at hfq
          obtain ⟨h1, h2⟩ := hfq
          subst h1 h2
          rcases innerLoop_halt env p
            (fetchBatch env.stream (applyStop env st).last_id p.batch_size)
            (fetchStep (applyStop env st)) with hin | ⟨w, hw, hnw, hflag⟩
          · rcases ih _ _ _ hq with hout | ⟨w2, hw2, hnw2, hflag2⟩
            · left
              simp only [List.mem_append, List.mem_cons]
              rintro ((hc | hc) | hc)
              · exact absurd hc.symm (by simp)
              · exact hin hc
              · exact hout hc
            · right
              refine ⟨Ev.fetchEv (applyStop env st).last_id ::
                (innerLoop env p
                  (fetchBatch env.stream (applyStop env st).last_id p.batch_size)
                  (fetchStep (applyStop env st))).2 ++ w2, ?_, ?_, hflag2⟩
              · rw [hw2]
                simp
              · simp only [List.mem_append, List.mem_cons]
                rintro ((hc | hc) | hc)
                · exact absurd hc.symm (by simp)
                · exact hin hc
                · exact hnw2 hc
          · -- the batch itself halted: the continuation ran with the flag
            -- false, so it contributed nothing
            cases f with
            | zero => simp [outerLoop] at hq
            | succ f2 =>
              rw [outerLoop_halted env p f2 _ (applyStop_is_running_false env _ hflag)] at hq
              simp only [Option.some.injEq] at hq
              subst hq
              right
              refine ⟨Ev.fetchEv (applyStop env st).last_id :: w, ?_, ?_, ?_⟩
              · rw [hw]
                simp
              · simp only [List.mem_cons]
                rintro (hc | hc)
                · exact absurd hc.symm (by simp)
                · exact hnw hc
              · exact applyStop_is_running_false env _ hflag

/-! ## C2: authorization-invalidated halt -/

/-- C2 counterexample: a run whose single item fails with an
authorization-invalidated RPCError.  Zero items were successfully
replicated before the failing item (no checkpoint write in the trace), yet
the reported total is 1, not 0: `global_counter` is incremented before the
send, so the reported total counts the failing attempt as well. -/
theorem C2_counterexample :
    clone_chat envC2x pD 3 = some (resC2x, stC2x, trC2x) ∧
    hasHalt trC2x = true ∧
    resC2x.total_messages = 1 ∧
    saves trC2x = [] := by
  exact ⟨by decide, by decide, by decide, by decide⟩

/-- C2 (amended): for every run that enters the replication loop, the
reported total equals the number of send attempts of the run — every
non-service item reached, the auth-failing item N itself and earlier
failed attempts included (not only the successes before N).  When an
authorization-invalidated failure occurs, it is the last event of the run
(so no send — indeed nothing at all — happens for any later item) and the
running flag ends false. -/
theorem C2_thm (env : Env) (p : Params) (fuel : Nat) (res : CloneResult) (st : St)
    (tr : List Ev) (h : clone_chat env p fuel = some (res, st, tr))
    (hres : env.resolve = Except.ok ()) :
    res.total_messages = (sendIds tr).length ∧
    (Ev.authHaltEv ∈ tr →
      (∃ w, tr = w ++ [Ev.authHaltEv] ∧ Ev.authHaltEv ∉ w) ∧ st.is_running = false) := by
  unfold clone_chat at h
  rw [hres] at h
  rw [Option.map_eq_some'] at h
  obtain ⟨q, hq, hfq⟩ := h
  simp only [Prod.mk.injEq] at hfq
  obtain ⟨h1, h2, h3⟩ := hfq
  subst h2 h3
  constructor
  · rw [← h1]
    have := outerLoop_gc env p fuel (initSt env) q.1 q.2 hq
    rw [this]
    simp [initSt]
  · intro hmem
    rcases outerLoop_halt env p fuel _ _ _ hq with hno | ⟨w, hw, hnw, hflag⟩
    · exact absurd hmem hno
    · exact ⟨⟨w, hw, hnw⟩, hflag⟩

/-- C2 witness: the amended theorem applied to the concrete
authorization-invalidated run `envC2x`. -/
theorem C2_witness :
    clone_chat envC2x pD 3 = some (resC2x, stC2x, trC2x) ∧
    resC2x.total_messages = (sendIds trC2x).length ∧
    stC2x.is_running = false := by
  have h : clone_chat envC2x pD 3 = some (resC2x, stC2x, trC2x) := by decide
  have h2 := C2_thm envC2x pD 3 resC2x stC2x trC2x h rfl
  exact ⟨h, h2.1, (h2.2 (by decide)).2⟩

/-! ## Checkpoint-monotonicity invariants -/

theorem attemptStep_last_id (st : St) : (attemptStep st).last_id = st.last_id := rfl

theorem attemptStep_checkpoint (st : St) : (attemptStep st).checkpoint = st.checkpoint := rfl

theorem serviceSkip_last_id (st : St) : (serviceSkip st).last_id = st.last_id := rfl

theorem serviceSkip_checkpoint (st : St) : (serviceSkip st).checkpoint = st.checkpoint := rfl

theorem stepFlood_last_id (st : St) : (stepFlood st).last_id = st.last_id := rfl

theorem stepFlood_checkpoint (st : St) : (stepFlood st).checkpoint = st.checkpoint := rfl

theorem stepSkipFail_last_id (st : St) : (stepSkipFail st).last_id = st.last_id := rfl

theorem stepSkipFail_checkpoint (st : St) : (stepSkipFail st).checkpoint = st.checkpoint := rfl

theorem authHaltState_last_id (st : St) : (authHaltState st).last_id = st.last_id := rfl

theorem authHaltState_checkpoint (st : St) : (authHaltState st).checkpoint = st.checkpoint := rfl

theorem stepOk_last_id (p : Params) (st : St) (m : Msg) : (stepOk p st m).last_id = m.id := by
  simp only [stepOk]; split <;> rfl

theorem stepOk_checkpoint (p : Params) (st : St) (m : Msg) :
    (stepOk p st m).checkpoint = some (pyStr m.id) := by
  simp only [stepOk]; split <;> rfl

theorem lastD_append (a b : List Int) : ∀ d, lastD (a ++ b) d = lastD b (lastD a d) := by
  induction a with
  | nil => intro d; rfl
  | cons x t ih => intro d; simp [lastD, ih]

/-- Checkpoint-write invariant of the inner loop: saved values all lie
strictly above the incoming `last_id` and never above the final one, they
are strictly increasing, the final `last_id` is the last saved value (or
unchanged when nothing was saved), and the checkpoint content is the
decimal of the final `last_id` as soon as anything was saved. -/
theorem innerLoop_saves (env : Env) (p : Params) (msgs : List Msg) : ∀ st : St,
    List.Pairwise (fun a b => a.id < b.id) msgs →
    (∀ m ∈ msgs, st.last_id < m.id) →
    (∀ v ∈ saves (innerLoop env p msgs st).2,
        st.last_id < v ∧ v ≤ (innerLoop env p msgs st).1.last_id) ∧
    List.Pairwise (fun a b => a < b) (saves (innerLoop env p msgs st).2) ∧
    (innerLoop env p msgs st).1.last_id =
      lastD (saves (innerLoop env p msgs st).2) st.last_id ∧
    (saves (innerLoop env p msgs st).2 = [] →
      (innerLoop env p msgs st).1.checkpoint = st.checkpoint) ∧
    (saves (innerLoop env p msgs st).2 ≠ [] →
      (innerLoop env p msgs st).1.checkpoint =
        some (pyStr (innerLoop env p msgs st).1.last_id)) ∧
    st.last_id ≤ (innerLoop env p msgs st).1.last_id := by
  induction msgs with
  | nil =>
    intro st _ _
    refine ⟨?_, ?_, ?_, ?_, ?_, ?_⟩ <;> simp [innerLoop, saves, lastD]
  | cons m rest ih =>
    intro st hpw hgt
    have hgt1 : st.last_id < m.id := hgt m (List.mem_cons_self m rest)
    cases hrun : (applyStop env st).is_running with
    | false =>
      rw [innerLoop_stopHit env p m rest st hrun]
      refine ⟨?_, ?_, ?_, ?_, ?_, ?_⟩ <;>
        simp [saves, lastD, applyStop_last_id, applyStop_checkpoint]
    | true =>
      cases hm : m.isService with
      | true =>
        rw [innerLoop_service env p m rest st hrun hm]
        have hl : (serviceSkip (applyStop env st)).last_id = st.last_id := by
          rw [serviceSkip_last_id, applyStop_last_id]
        have hc : (serviceSkip (applyStop env st)).checkpoint = st.checkpoint := by
          rw [serviceSkip_checkpoint, applyStop_checkpoint]
        have IH := ih (serviceSkip (applyStop env st)) hpw.of_cons
          (fun m2 hm2 => by rw [hl]; exact hgt m2 (List.mem_cons_of_mem m hm2))
        rw [← hl, ← hc]
        exact IH
      | false =>
        cases hs : env.send (applyStop env st).sendIdx with
        | ok =>
          rw [innerLoop_sendOk env p m rest st hrun hm hs]
          dsimp only
          have hl : (stepOk p (attemptStep (applyStop env st)) m).last_id = m.id :=
            stepOk_last_id p _ m
          have hck : (stepOk p (attemptStep (applyStop env st)) m).checkpoint =
              some (pyStr m.id) := stepOk_checkpoint p _ m
          have IH := ih (stepOk p (attemptStep (applyStop env st)) m) hpw.of_cons
            (fun m2 hm2 => by
              rw [hl]
              exact List.rel_of_pairwise_cons hpw hm2)
          obtain ⟨IH1, IH2, IH3, IH4, IH5, IH6⟩ := IH
          rw [hl] at IH1 IH3 IH6
          have hsv : saves (okEvents p (applyStop env st).total_sent m ++
              (innerLoop env p rest (stepOk p (attemptStep (applyStop env st)) m)).2) =
              m.id :: saves (innerLoop env p rest
                (stepOk p (attemptStep (applyStop env st)) m)).2 := by
            rw [saves_append, saves_okEvents]
            rfl
          rw [hsv]
          refine ⟨?_, ?_, ?_, ?_, ?_, ?_⟩
          · intro v hv
            rcases List.mem_cons.mp hv with hv1 | hv2
            · subst hv1
              exact ⟨hgt1, IH6⟩
            · obtain ⟨ha, hb⟩ := IH1 v hv2
              exact ⟨lt_trans hgt1 ha, hb⟩
          · exact List.pairwise_cons.mpr ⟨fun v hv => (IH1 v hv).1, IH2⟩
          · simpa [lastD] using IH3
          · intro hcontra
            exact absurd hcontra (by simp)
          · intro _
            cases hsr : saves (innerLoop env p rest
                (stepOk p (attemptStep (applyStop env st)) m)).2 with
            | nil =>
              rw [hsr] at IH3 IH4
              rw [IH4 rfl, hck, IH3]
              rfl
            | cons x t =>
              rw [hsr] at IH5
              exact IH5 (by simp)
          · have : st.last_id ≤ m.id := le_of_lt hgt1
            exact le_trans this IH6
        | floodWait w0 =>
          rw [innerLoop_sendFlood env p m rest st w0 hrun hm hs]
          dsimp only
          have hl : (stepFlood (attemptStep (applyStop env st))).last_id = st.last_id := by
            rw [stepFlood_last_id, attemptStep_last_id, applyStop_last_id]
          have hc : (stepFlood (attemptStep (applyStop env st))).checkpoint = st.checkpoint := by
            rw [stepFlood_checkpoint, attemptStep_checkpoint, applyStop_checkpoint]
          have IH := ih (stepFlood (attemptStep (applyStop env st))) hpw.of_cons
            (fun m2 hm2 => by rw [hl]; exact hgt m2 (List.mem_cons_of_mem m hm2))
          rw [← hl, ← hc]
          have hsv : saves (Ev.sendEv m.id :: Ev.sleepFlood w0 (w0 + 5) ::
              (innerLoop env p rest (stepFlood (attemptStep (applyStop env st)))).2) =
              saves (innerLoop env p rest (stepFlood (attemptStep (applyStop env st)))).2 := rfl
          rw [hsv]
          exact IH
        | authKey =>
          rw [innerLoop_sendAuthKey env p m rest st hrun hm hs]
          dsimp only
          have hl : (authHaltState (attemptStep (applyStop env st))).last_id = st.last_id := by
            rw [authHaltState_last_id, attemptStep_last_id, applyStop_last_id]
          have hc : (authHaltState (attemptStep (applyStop env st))).checkpoint =
              st.checkpoint := by
            rw [authHaltState_checkpoint, attemptStep_checkpoint, applyStop_checkpoint]
          refine ⟨?_, ?_, ?_, ?_, ?_, ?_⟩ <;> simp [saves, lastD, hl, hc]
        | rpc s2 =>
          cases ha : isAuthInvalidatedMsg s2 with
          | true =>
            rw [innerLoop_sendRpcAuth env p m rest st s2 hrun hm hs ha]
            dsimp only
            have hl : (authHaltState (attemptStep (applyStop env st))).last_id =
                st.last_id := by
              rw [authHaltState_last_id, attemptStep_last_id, applyStop_last_id]
            have hc : (authHaltState (attemptStep (applyStop env st))).checkpoint =
                st.checkpoint := by
              rw [authHaltState_checkpoint, attemptStep_checkpoint, applyStop_checkpoint]
            refine ⟨?_, ?_, ?_, ?_, ?_, ?_⟩ <;> simp [saves, lastD, hl, hc]
          | false =>
            rw [innerLoop_sendRpcOther env p m rest st s2 hrun hm hs ha]
            dsimp only
            have hl : (stepSkipFail (attemptStep (applyStop env st))).last_id =
                st.last_id := by
              rw [stepSkipFail_last_id, attemptStep_last_id, applyStop_last_id]
            have hc : (stepSkipFail (attemptStep (applyStop env st))).checkpoint =
                st.checkpoint := by
              rw [stepSkipFail_checkpoint, attemptStep_checkpoint, applyStop_checkpoint]
            have IH := ih (stepSkipFail (attemptStep (applyStop env st))) hpw.of_cons
              (fun m2 hm2 => by rw [hl]; exact hgt m2 (List.mem_cons_of_mem m hm2))
            rw [← hl, ← hc]
            have hsv : saves (Ev.sendEv m.id ::
                (innerLoop env p rest (stepSkipFail (attemptStep (applyStop env st)))).2) =
                saves (innerLoop env p rest
                  (stepSkipFail (attemptStep (applyStop env st)))).2 := rfl
            rw [hsv]
            exact IH
        | exc s2 =>
          cases ha : isAuthInvalidatedMsg s2 with
          | true =>
            rw [innerLoop_sendExcAuth env p m rest st s2 hrun hm hs ha]
            dsimp only
            have hl : (authHaltState (attemptStep (applyStop env st))).last_id =
                st.last_id := by
              rw [authHaltState_last_id, attemptStep_last_id, applyStop_last_id]
            have hc : (authHaltState (attemptStep (applyStop env st))).checkpoint =
                st.checkpoint := by
              rw [authHaltState_checkpoint, attemptStep_checkpoint, applyStop_checkpoint]
            refine ⟨?_, ?_, ?_, ?_, ?_, ?_⟩ <;> simp [saves, lastD, hl, hc]
          | false =>
            rw [innerLoop_sendExcOther env p m rest st s2 hrun hm hs ha]
            dsimp only
            have hl : (stepSkipFail (attemptStep (applyStop env st))).last_id =
                st.last_id := by
              rw [stepSkipFail_last_id, attemptStep_last_id, applyStop_last_id]
            have hc : (stepSkipFail (attemptStep (applyStop env st))).checkpoint =
                st.checkpoint := by
              rw [stepSkipFail_checkpoint, attemptStep_checkpoint, applyStop_checkpoint]
            have IH := ih (stepSkipFail (attemptStep (applyStop env st))) hpw.of_cons
              (fun m2 hm2 => by rw [hl]; exact hgt m2 (List.mem_cons_of_mem m hm2))
            rw [← hl, ← hc]
            have hsv : saves (Ev.sendEv m.id ::
                (innerLoop env p rest (stepSkipFail (attemptStep (applyStop env st)))).2) =
                saves (innerLoop env p rest
                  (stepSkipFail (attemptStep (applyStop env st)))).2 := rfl
            rw [hsv]
            exact IH

theorem fetchBatch_sublist (stream : List Msg) (minId : Int) (limit : Nat) :
    List.Sublist (fetchBatch stream minId limit) stream :=
  (List.take_sublist _ _).trans (List.filter_sublist _)

theorem fetchBatch_mem_gt (stream : List Msg) (minId : Int) (limit : Nat) (m : Msg)
    (hm : m ∈ fetchBatch stream minId limit) : minId < m.id := by
  unfold fetchBatch at hm
  have h1 := List.mem_of_mem_take hm
  have h2 := (List.mem_filter.mp h1).2
  exact of_decide_eq_true h2

/-- Checkpoint-write invariant of the whole run (stream sorted by id). -/
theorem outerLoop_saves (env : Env) (p : Params)
    (hsort : List.Pairwise (fun a b => a.id < b.id) env.stream) (fuel : Nat) :
    ∀ (st st' : St) (tr : List Ev),
    outerLoop env p fuel st = some (st', tr) →
    (∀ v ∈ saves tr, st.last_id < v ∧ v ≤ st'.last_id) ∧
    List.Pairwise (fun a b => a < b) (saves tr) ∧
    st'.last_id = lastD (saves tr) st.last_id ∧
    (saves tr = [] → st'.checkpoint = st.checkpoint) ∧
    (saves tr ≠ [] → st'.checkpoint = some (pyStr st'.last_id)) ∧
    st.last_id ≤ st'.last_id := by
  induction fuel with
  | zero => intro st st' tr h; simp [outerLoop] at h
  | succ f ih =>
    intro st st' tr h
    cases hrun : (applyStop env st).is_running with
    | false =>
      rw [outerLoop_halted env p f st hrun] at h
      simp only [Option.some.injEq, Prod.mk.injEq] at h
      obtain ⟨h1, h2⟩ := h
      subst h1 h2
      refine ⟨?_, ?_, ?_, ?_, ?_, ?_⟩ <;>
        simp [saves, lastD, applyStop_last_id, applyStop_checkpoint]
    | true =>
      cases hfe : env.fetchErr (applyStop env st).fetchIdx with
      | true =>
        rw [outerLoop_fetchErr env p f st hrun hfe] at h
        simp only [Option.some.injEq, Prod.mk.injEq] at h
        obtain ⟨h1, h2⟩ := h
        subst h1 h2
        refine ⟨?_, ?_, ?_, ?_, ?_, ?_⟩ <;>
          simp [saves, lastD, fetchStep_last_id, fetchStep_checkpoint,
            applyStop_last_id, applyStop_checkpoint]
      | false =>
        cases hem : (fetchBatch env.stream (applyStop env st).last_id p.batch_size).isEmpty with
        | true =>
          rw [outerLoop_empty env p f st hrun hfe hem] at h
          simp only [Option.some.injEq, Prod.mk.injEq] at h
          obtain ⟨h1, h2⟩ := h
          subst h1 h2
          refine ⟨?_, ?_, ?_, ?_, ?_, ?_⟩ <;>
            simp [saves, lastD, fetchStep_last_id, fetchStep_checkpoint,
              applyStop_last_id, applyStop_checkpoint]
        | false =>
          rw [outerLoop_cont env p f st hrun hfe hem] at h
          rw [Option.map_eq_some'] at h
          obtain ⟨q, hq, hfq⟩ := h
          simp only [Prod.mk.injEq] at hfq
          obtain ⟨h1, h2⟩ := hfq
          subst h1 h2
          have hfl : (fetchStep (applyStop env st)).last_id = st.last_id := by
            rw [fetchStep_last_id, applyStop_last_id]
          have hfc : (fetchStep (applyStop env st)).checkpoint = st.checkpoint := by
            rw [fetchStep_checkpoint, applyStop_checkpoint]
          have hI := innerLoop_saves env p
            (fetchBatch env.stream (applyStop env st).last_id p.batch_size)
            (fetchStep (applyStop env st))
            (List.Pairwise.sublist (fetchBatch_sublist _ _ _) hsort)
            (fun m2 hm2 => by rw [hfl]; rw [← applyStop_last_id env st]
                              exact fetchBatch_mem_gt _ _ _ m2 hm2)
          obtain ⟨hI1, hI2, hI3, hI4, hI5, hI6⟩ := hI
          rw [hfl] at hI1 hI3 hI6
          rw [hfc] at hI4
          have hO := ih _ _ _ hq
          obtain ⟨hO1, hO2, hO3, hO4, hO5, hO6⟩ := hO
          have hsv : saves (Ev.fetchEv (applyStop env st).last_id ::
              (innerLoop env p (fetchBatch env.stream (applyStop env st).last_id p.batch_size)
                (fetchStep (applyStop env st))).2 ++ q.2) =
              saves (innerLoop env p
                (fetchBatch env.stream (applyStop env st).last_id p.batch_size)
                (fetchStep (applyStop env st))).2 ++ saves q.2 := by
            rw [saves_append]
            rfl
          rw [hsv]
          refine ⟨?_, ?_, ?_, ?_, ?_, ?_⟩
          · intro v hv
            rcases List.mem_append.mp hv with hv1 | hv2
            · obtain ⟨ha, hb⟩ := hI1 v hv1
              exact ⟨ha, le_trans hb hO6⟩
            · obtain ⟨ha, hb⟩ := hO1 v hv2
              exact ⟨lt_of_le_of_lt hI6 ha, hb⟩
          · refine List.pairwise_append.mpr ⟨hI2, hO2, ?_⟩
            intro a ha b hb
            exact lt_of_le_of_lt (hI1 a ha).2 (hO1 b hb).1
          · rw [lastD_append, ← hI3, hO3]
          · intro hnil
            obtain ⟨hn1, hn2⟩ := List.append_eq_nil.mp hnil
            rw [hO4 hn2, hI4 hn1]
          · intro hne
            cases hQ : saves q.2 with
            | nil =>
              have hR : saves (innerLoop env p
                  (fetchBatch env.stream (applyStop env st).last_id p.batch_size)
                  (fetchStep (applyStop env st))).2 ≠ [] := by
                intro hcon
                rw [hcon, hQ] at hne
                exact hne rfl
              rw [hQ] at hO3
              rw [hO4 hQ, hI5 hR, hO3]
              rfl
            | cons x t =>
              exact hO5 (by rw [hQ]; simp)
          · exact le_trans hI6 hO6

/-! ## C3: checkpoint monotonicity -/

/-- C3: in any run over a stream sorted by increasing id, the sequence of
values written to the checkpoint store is non-decreasing (indeed strictly
increasing, so the value once advanced never decreases within the run),
every written value lies strictly above the checkpoint loaded at run
start, the final in-memory `last_id` equals the last written value (or the
loaded one when nothing was written), and as soon as anything was written
the persisted checkpoint content is the decimal text of that final value. -/
theorem C3_thm (env : Env) (p : Params) (fuel : Nat) (res : CloneResult) (st : St)
    (tr : List Ev)
    (hsort : List.Pairwise (fun a b => a.id < b.id) env.stream)
    (h : clone_chat env p fuel = some (res, st, tr)) :
    List.Chain' (fun a b => a ≤ b) (saves tr) ∧
    (∀ v ∈ saves tr, load_checkpoint env.checkpoint < v) ∧
    st.last_id = lastD (saves tr) (load_checkpoint env.checkpoint) ∧
    (saves tr ≠ [] → st.checkpoint = some (pyStr st.last_id)) := by
  unfold clone_chat at h
  cases hres : env.resolve with
  | error e =>
    rw [hres] at h
    simp only [Option.some.injEq, Prod.mk.injEq] at h
    obtain ⟨-, h2, h3⟩ := h
    subst h2 h3
    refine ⟨?_, ?_, ?_, ?_⟩ <;> simp [saves, lastD, initSt]
  | ok u =>
    cases u
    rw [hres] at h
    rw [Option.map_eq_some'] at h
    obtain ⟨q, hq, hfq⟩ := h
    simp only [Prod.mk.injEq] at hfq
    obtain ⟨-, h2, h3⟩ := hfq
    subst h2 h3
    have hS := outerLoop_saves env p hsort fuel (initSt env) q.1 q.2 hq
    obtain ⟨hS1, hS2, hS3, hS4, hS5, hS6⟩ := hS
    have hinit : (initSt env).last_id = load_checkpoint env.checkpoint := rfl
    rw [hinit] at hS1 hS3
    refine ⟨?_, ?_, ?_, ?_⟩
    · exact List.Pairwise.chain' (hS2.imp (fun hab => le_of_lt hab))
    · exact fun v hv => (hS1 v hv).1
    · exact hS3
    · exact hS5

/-- C3 witness: the theorem applied to the concrete two-message run
`envC3w`, whose checkpoint writes are `[1, 2]`. -/
theorem C3_witness :
    clone_chat envC3w pD 3 = some (resC3w, stC3w, trC3w) ∧
    List.Chain' (fun a b => a ≤ b) (saves trC3w) ∧
    stC3w.checkpoint = some (pyStr stC3w.last_id) := by
  have h : clone_chat envC3w pD 3 = some (resC3w, stC3w, trC3w) := by decide
  have h2 := C3_thm envC3w pD 3 resC3w stC3w trC3w (by decide) h
  exact ⟨h, h2.1, h2.2.2.2 (by decide)⟩

/-! ## C6: checkpoint loading always returns an integer -/

theorem digitChar_isDigit (d : Nat) : (digitChar d).isDigit = true := by
  match d with
  | 0 | 1 | 2 | 3 | 4 | 5 | 6 | 7 | 8 => decide
  | n + 9 => exact (by decide : ('9').isDigit = true)

theorem digitChar_val : ∀ d < 10, (digitChar d).toNat - 48 = d := by decide

theorem digitsVal_cons_digit (acc : Nat) (c : Char) (t : List Char) (hc : c.isDigit = true) :
    digitsVal acc (c :: t) = digitsVal (acc * 10 + (c.toNat - 48)) t := by
  conv_lhs => unfold digitsVal
  rw [hc]
  simp

theorem digitsVal_append_digit (l : List Char) : ∀ acc mm : Nat,
    (∀ c ∈ l, c.isDigit = true) → digitsVal acc l = some mm →
    ∀ d, d < 10 → digitsVal acc (l ++ [digitChar d]) = some (mm * 10 + d) := by
  induction l with
  | nil =>
    intro acc mm _ h d hd
    simp only [digitsVal, Option.some.injEq] at h
    subst h
    simp [digitsVal, digitChar_isDigit d, digitChar_val d hd]
  | cons c t ih =>
    intro acc mm hdig h d hd
    have hc : c.isDigit = true := hdig c (List.mem_cons_self c t)
    rw [digitsVal_cons_digit acc c t hc] at h
    rw [List.cons_append, digitsVal_cons_digit acc c (t ++ [digitChar d]) hc]
    exact ih _ mm (fun c2 h2 => hdig c2 (List.mem_cons_of_mem c h2)) h d hd

theorem natChars_digits : ∀ (f n : Nat), ∀ c ∈ natChars f n, c.isDigit = true := by
  intro f
  induction f with
  | zero => intro n c hc; simp [natChars] at hc
  | succ f2 ih =>
    intro n c hc
    by_cases h10 : n < 10
    · simp only [natChars, h10, if_true, List.mem_singleton] at hc
      subst hc
      exact digitChar_isDigit n
    · simp only [natChars, h10, if_false, List.mem_append, List.mem_singleton] at hc
      rcases hc with hc | hc
      · exact ih (n / 10) c hc
      · subst hc
        exact digitChar_isDigit (n % 10)

theorem parseNat_natChars : ∀ n f : Nat, n < f → pyParseNat (natChars f n) = some n := by
  intro n
  induction n using Nat.strong_induction_on with
  | _ n ih =>
    intro f hf
    cases f with
    | zero => omega
    | succ f2 =>
      by_cases h10 : n < 10
      · simp only [natChars, h10, if_true]
        simp [pyParseNat, digitChar_isDigit n, digitsVal, digitChar_val n h10]
      · have hrec : n / 10 < n := Nat.div_lt_self (by omega) (by omega)
        have hfuel : n / 10 < f2 := by omega
        have hP := ih (n / 10) hrec f2 hfuel
        simp only [natChars, h10, if_false]
        cases hL : natChars f2 (n / 10) with
        | nil => rw [hL] at hP; simp [pyParseNat] at hP
        | cons c rest =>
          rw [hL] at hP
          have hcd : c.isDigit = true :=
            natChars_digits f2 (n / 10) c (by rw [hL]; exact List.mem_cons_self c rest)
          simp only [pyParseNat, hcd, if_true] at hP
          simp only [List.cons_append, pyParseNat, hcd, if_true]
          have hdi : ∀ c2 ∈ rest, c2.isDigit = true := fun c2 h2 =>
            natChars_digits f2 (n / 10) c2 (by rw [hL]; exact List.mem_cons_of_mem c h2)
          have hstep := digitsVal_append_digit rest (c.toNat - 48) (n / 10) hdi hP
            (n % 10) (Nat.mod_lt n (by omega))
          rw [hstep]
          congr 1
          omega

theorem isDigit_not_space (c : Char) (h : c.isDigit = true) : isPySpace c = false := by
  simp only [Char.isDigit, Bool.and_eq_true, decide_eq_true_eq] at h
  obtain ⟨h1, h2⟩ := h
  have n1 : c ≠ ' ' := fun hc => by subst hc; exact absurd h1 (by decide)
  have n2 : c ≠ '\t' := fun hc => by subst hc; exact absurd h1 (by decide)
  have n3 : c ≠ '\n' := fun hc => by subst hc; exact absurd h1 (by decide)
  have n4 : c ≠ '\r' := fun hc => by subst hc; exact absurd h1 (by decide)
  have n5 : c ≠ '\x0B' := fun hc => by subst hc; exact absurd h1 (by decide)
  have n6 : c ≠ '\x0C' := fun hc => by subst hc; exact absurd h1 (by decide)
  simp [isPySpace, n1, n2, n3, n4, n5, n6]

theorem dropWhile_eq_self_of (l : List Char) (h : ∀ c ∈ l, isPySpace c = false) :
    l.dropWhile isPySpace = l := by
  cases l with
  | nil => rfl
  | cons c t => simp [List.dropWhile_cons, h c (List.mem_cons_self c t)]

theorem pyStrip_id (l : List Char) (h : ∀ c ∈ l, isPySpace c = false) :
    pyStripChars l = l := by
  unfold pyStripChars
  rw [dropWhile_eq_self_of l h,
    dropWhile_eq_self_of l.reverse (fun c hc => h c (List.mem_reverse.mp hc)),
    List.reverse_reverse]

theorem pyParseInt_cons (c : Char) (rest : List Char) :
    pyParseInt (c :: rest) =
      if c = '+' then (pyParseNat rest).map (fun n : Nat => (n : Int))
      else if c = '-' then (pyParseNat rest).map (fun n : Nat => -(n : Int))
      else (pyParseNat (c :: rest)).map (fun n : Nat => (n : Int)) := rfl

/-- Round trip: the loader parses back exactly what the saver writes. -/
theorem pyInt_pyStr (i : Int) : pyInt (pyStr i) = some i := by
  by_cases hneg : i < 0
  · have hdata : (pyStr i).data = '-' :: natStr i.natAbs := by
      simp [pyStr, hneg]
    unfold pyInt
    rw [hdata, pyStrip_id]
    · show pyParseInt ('-' :: natChars (i.natAbs + 1) i.natAbs) = some i
      have hP := parseNat_natChars i.natAbs (i.natAbs + 1) (Nat.lt_succ_self _)
      rw [pyParseInt_cons, if_neg (by decide : ¬ ('-' = '+')),
        if_pos (rfl : '-' = '-'), hP]
      simp only [Option.map_some', Option.some.injEq]
      omega
    · intro c hc
      rcases List.mem_cons.mp hc with hc1 | hc2
      · subst hc1; decide
      · exact isDigit_not_space c
          (natChars_digits (i.natAbs + 1) i.natAbs c hc2)
  · have hdata : (pyStr i).data = natStr i.toNat := by
      simp [pyStr, hneg]
    unfold pyInt
    rw [hdata, pyStrip_id]
    · show pyParseInt (natChars (i.toNat + 1) i.toNat) = some i
      have hP := parseNat_natChars i.toNat (i.toNat + 1) (Nat.lt_succ_self _)
      cases hL : natChars (i.toNat + 1) i.toNat with
      | nil => rw [hL] at hP; simp [pyParseNat] at hP
      | cons c rest =>
        rw [hL] at hP
        have hcd : c.isDigit = true :=
          natChars_digits _ _ c (by rw [hL]; exact List.mem_cons_self c rest)
        have hne1 : ¬ (c = '+') := fun hc => by subst hc; exact absurd hcd (by decide)
        have hne2 : ¬ (c = '-') := fun hc => by subst hc; exact absurd hcd (by decide)
        rw [pyParseInt_cons, if_neg hne1, if_neg hne2, hP]
        simp only [Option.map_some', Option.some.injEq]
        omega
    · intro c hc
      exact isDigit_not_space c
        (natChars_digits (i.toNat + 1) i.toNat c
          (show c ∈ natChars (i.toNat + 1) i.toNat from hc))

/-- C6: loading a checkpoint is total and never raises: it returns 0 for a
missing record, the recorded integer for a record written by the saver
(or any record whose stripped content parses as a Python int literal), and
0 for any unparseable record. -/
theorem C6_thm :
    load_checkpoint none = 0 ∧
    (∀ i : Int, load_checkpoint (some (pyStr i)) = i) ∧
    (∀ s : String, pyInt s = none → load_checkpoint (some s) = 0) ∧
    (∀ (s : String) (v : Int), pyInt s = some v → load_checkpoint (some s) = v) := by
  refine ⟨rfl, ?_, ?_, ?_⟩
  · intro i
    simp [load_checkpoint, pyInt_pyStr i]
  · intro s hs
    simp [load_checkpoint, hs]
  · intro s v hs
    simp [load_checkpoint, hs]

/-- C6 witness: loading back saved values, and a corrupt record degrading
to 0. -/
theorem C6_witness :
    load_checkpoint (some (pyStr 42)) = 42 ∧
    load_checkpoint (some (pyStr (-7))) = -7 ∧
    load_checkpoint (some "corrupt") = 0 :=
  ⟨C6_thm.2.1 42, C6_thm.2.1 (-7), C6_thm.2.2.1 "corrupt" (by decide)⟩
